import Mathlib

/-!
Shallow embedding of the linear congruential generator classes from
`08-extension-types.ipynb`: the pure-Python class `PyLCG` and the Cython
extension type `CyLCG` (C `long` fields, `cdivision(True)`), together with
theorems settling the specification's claims about them.

Python integers are unbounded, and Python's `%` with a positive right
operand is the floor-style modulus, embedded as `Int.fmod`.  C `long`
arithmetic is 64-bit two's-complement, embedded by wrapping every
intermediate result with `wrap64`, and `%` under `cdivision(True)` is the
C truncating remainder, embedded as `Int.tmod`.
-/

/-- The four instance attributes shared by `PyLCG` and `CyLCG`:
multiplier `a`, increment `c`, modulus `m`, and the mutable RNG state `x`. -/
structure LCGState where
  a : Int
  c : Int
  m : Int
  x : Int

deriving instance DecidableEq for LCGState

deriving instance DecidableEq for Except

deriving instance Repr for LCGState

namespace PyLCG

/-- Embeds `PyLCG.__init__(self, a=1664525, c=1013904223, m=2**32, seed=0)`:
stores `a` and `c`, raises `ValueError` when `m <= 0`, otherwise stores `m`
and sets the RNG state `x` to `seed`. -/
def init (a c m seed : Int) : Except String LCGState :=
  if m ≤ 0 then
    Except.error ("m must be > 0, given " ++ toString m)
  else
    Except.ok { a := a, c := c, m := m, x := seed }

/-- Embeds `PyLCG._advance(self)`: returns the current `x` (pre-update) and
replaces `x` by `(self.a * self.x + self.c) % self.m`, where `%` is
Python's floor-style modulus `Int.fmod`. -/
def advance (s : LCGState) : Int × LCGState :=
  (s.x, { s with x := Int.fmod (s.a * s.x + s.c) s.m })

end PyLCG

/-- Embeds the body of the list comprehension
`[self._advance() for _ in range(size)]` (and the equivalent `for` loop in
the Cython `randint`): perform `n` successive `step` calls, collecting the
returned values in generation order and threading the state.  `step` is the
class's `_advance` method. -/
def LCG.batch (step : LCGState → Int × LCGState) : Nat → LCGState → List Int × LCGState
  | 0, s => ([], s)
  | n + 1, s =>
    let p := step s
    let q := LCG.batch step n p.2
    (p.1 :: q.1, q.2)

/-- Embeds the advance-call shape of `randint(self, size=None)`: with
`size` omitted it returns the single value of one `_advance()` call, and
with `size = n` it returns the array of `n` successive `_advance()`
results.  This is the whole body of the Python `randint`; the Cython
`randint` additionally converts `size` to a 32-bit C `int` (see
`CyLCG.randint`). -/
def LCG.randintWith (step : LCGState → Int × LCGState) (size : Option Nat) (s : LCGState) :
    (Int ⊕ List Int) × LCGState :=
  match size with
  | none =>
    let p := step s
    (Sum.inl p.1, p.2)
  | some n =>
    let q := LCG.batch step n s
    (Sum.inr q.1, q.2)

/-- Embeds `PyLCG.randint(self, size=None)`. -/
def PyLCG.randint : Option Nat → LCGState → (Int ⊕ List Int) × LCGState :=
  LCG.randintWith PyLCG.advance

/-- One method call on a generator: `_advance()` or `randint(size)`. -/
inductive LCGCall where
  | adv : LCGCall
  | rand : Option Nat → LCGCall

/-- The values returned by one call, flattened to a list: a single value
becomes a one-element list, an array stays as is. -/
def LCG.callOut : (Int ⊕ List Int) → List Int
  | Sum.inl v => [v]
  | Sum.inr l => l

/-- Run a sequence of method calls on a generator whose `_advance` is
`step`, collecting every returned value in order. -/
def LCG.runWith (step : LCGState → Int × LCGState) :
    List LCGCall → LCGState → List Int × LCGState
  | [], s => ([], s)
  | LCGCall.adv :: rest, s =>
    let p := step s
    let q := LCG.runWith step rest p.2
    (p.1 :: q.1, q.2)
  | LCGCall.rand size :: rest, s =>
    let p := LCG.randintWith step size s
    let q := LCG.runWith step rest p.2
    (LCG.callOut p.1 ++ q.1, q.2)

/-- Run a sequence of `_advance()`/`randint()` calls on a `PyLCG` object. -/
def PyLCG.run : List LCGCall → LCGState → List Int × LCGState :=
  LCG.runWith PyLCG.advance

/-- Two's-complement wrap-around of a value stored in a 64-bit C `long`. -/
def wrap64 (z : Int) : Int := (z + 2 ^ 63) % 2 ^ 64 - 2 ^ 63

/-- Whether a Python integer fits in a C `long` (64-bit signed range);
Cython raises `OverflowError` on conversion otherwise. -/
def fitsLong (z : Int) : Bool := -(2 ^ 63) ≤ z && z < 2 ^ 63

/-- Whether a batch size fits in a 32-bit signed C `int`: the source's
`cdef int n = int(size)` in the Cython `randint` raises `OverflowError`
otherwise.  Sizes here are non-negative, so only the upper bound bites. -/
def fitsCInt (n : Nat) : Bool := n < 2 ^ 31

namespace CyLCG

/-- Embeds `CyLCG.__cinit__(self, long a=1664525, long c=1013904223,
long m=2**32, long seed=0)`: each argument must fit in a C `long`
(else Cython raises `OverflowError` at conversion); then the body stores
`a`, `c`, raises `ValueError` when `m <= 0`, stores `m`, and sets `x` to
`seed`. -/
def cinit (a c m seed : Int) : Except String LCGState :=
  if fitsLong a && fitsLong c && fitsLong m && fitsLong seed then
    if m ≤ 0 then
      Except.error ("m must be > 0, given " ++ toString m)
    else
      Except.ok { a := a, c := c, m := m, x := seed }
  else
    Except.error "OverflowError: Python int too large to convert to C long"

/-- Embeds `CyLCG._advance(self)` under `cython.cdivision(True)`: the
product `self.a * self.x` and the following sum are 64-bit C `long`
operations that wrap on overflow, and `%` is the C truncating remainder
`Int.tmod`.  Returns the pre-update `x` and stores the remainder in `x`. -/
def advance (s : LCGState) : Int × LCGState :=
  (s.x, { s with x := Int.tmod (wrap64 (wrap64 (s.a * s.x) + s.c)) s.m })

end CyLCG

/-- Embeds `CyLCG.randint(self, size=None)`: with `size` omitted it
returns one `_advance()` value; otherwise the loop bound passes through
`cdef int n = int(size)`, a conversion to a 32-bit C `int` that raises
`OverflowError` when `size` does not fit, and on success the loop performs
the same sequence of `_advance` calls as the Python version. -/
def CyLCG.randint (size : Option Nat) (s : LCGState) :
    Except String ((Int ⊕ List Int) × LCGState) :=
  match size with
  | none =>
    let p := CyLCG.advance s
    Except.ok (Sum.inl p.1, p.2)
  | some n =>
    if fitsCInt n then
      let q := LCG.batch CyLCG.advance n s
      Except.ok (Sum.inr q.1, q.2)
    else
      Except.error "OverflowError: value too large to convert to int"

/-- Run a sequence of `_advance()`/`randint()` calls on a `CyLCG` object;
a raised `OverflowError` aborts the session. -/
def CyLCG.run : List LCGCall → LCGState → Except String (List Int × LCGState)
  | [], s => Except.ok ([], s)
  | LCGCall.adv :: rest, s =>
    let p := CyLCG.advance s
    match CyLCG.run rest p.2 with
    | Except.ok q => Except.ok (p.1 :: q.1, q.2)
    | Except.error e => Except.error e
  | LCGCall.rand size :: rest, s =>
    match CyLCG.randint size s with
    | Except.ok p =>
      match CyLCG.run rest p.2 with
      | Except.ok q => Except.ok (LCG.callOut p.1 ++ q.1, q.2)
      | Except.error e => Except.error e
    | Except.error e => Except.error e

/-- Whether one call avoids the `int(size)` overflow in `CyLCG.randint`. -/
def callFitsCInt : LCGCall → Bool
  | LCGCall.adv => true
  | LCGCall.rand none => true
  | LCGCall.rand (some n) => fitsCInt n

/-- Performs `n` sequential `randint()` calls with `size` omitted,
collecting each single returned value in generation order: the reference
against which the batch form `randint(size=n)` is compared. -/
def PyLCG.seqSingle : Nat → LCGState → List Int × LCGState
  | 0, s => ([], s)
  | n + 1, s =>
    let p := PyLCG.randint none s
    let q := PyLCG.seqSingle n p.2
    (LCG.callOut p.1 ++ q.1, q.2)

/-- The reduced-state invariant at the notebook's default parameters:
the three recurrence parameters hold their default values and the state
`x` is reduced modulo `2^32`. -/
def defaultRed (s : LCGState) : Prop :=
  s.a = 1664525 ∧ s.c = 1013904223 ∧ s.m = 2 ^ 32 ∧ 0 ≤ s.x ∧ s.x < 2 ^ 32

namespace LCG

/-- A batch of `n` advance calls returns exactly `n` values. -/
theorem batch_length (step : LCGState → Int × LCGState) :
    ∀ (n : Nat) (s : LCGState), (LCG.batch step n s).1.length = n
  | 0, _ => rfl
  | n + 1, s => by
    simp [LCG.batch, batch_length step n]

/-- Simulation: two advance functions that agree on all states satisfying an
invariant `P` preserved by them produce identical batches from a `P`-state. -/
theorem batch_congr (P : LCGState → Prop) {f g : LCGState → Int × LCGState}
    (h : ∀ s, P s → f s = g s ∧ P (f s).2) :
    ∀ (n : Nat) (s : LCGState), P s →
      LCG.batch f n s = LCG.batch g n s ∧ P (LCG.batch f n s).2
  | 0, _, hs => ⟨rfl, hs⟩
  | n + 1, s, hs => by
    obtain ⟨hfg, hP⟩ := h s hs
    obtain ⟨ih1, ih2⟩ := batch_congr P h n (f s).2 hP
    refine ⟨?_, ?_⟩
    · show ((f s).1 :: (LCG.batch f n (f s).2).1, (LCG.batch f n (f s).2).2)
        = ((g s).1 :: (LCG.batch g n (g s).2).1, (LCG.batch g n (g s).2).2)
      rw [← hfg, ih1]
    · show P (LCG.batch f n (f s).2).2
      exact ih2

/-- Invariant/range lemma for batches: if each advance from a `P`-state
emits a `Q`-value and lands in a `P`-state, then every value of a batch
from a `P`-state satisfies `Q` and the final state satisfies `P`. -/
theorem batch_inv (P : LCGState → Prop) (Q : Int → Prop) {f : LCGState → Int × LCGState}
    (h : ∀ s, P s → Q (f s).1 ∧ P (f s).2) :
    ∀ (n : Nat) (s : LCGState), P s →
      (∀ v ∈ (LCG.batch f n s).1, Q v) ∧ P (LCG.batch f n s).2
  | 0, _, hs => ⟨by simp [LCG.batch], hs⟩
  | n + 1, s, hs => by
    obtain ⟨hQ, hP⟩ := h s hs
    obtain ⟨ih1, ih2⟩ := batch_inv P Q h n (f s).2 hP
    refine ⟨?_, ih2⟩
    intro v hv
    simp only [LCG.batch, List.mem_cons] at hv
    rcases hv with hv | hv
    · exact hv ▸ hQ
    · exact ih1 v hv

/-- Invariant/range lemma for a single `randint` call. -/
theorem randintWith_inv (P : LCGState → Prop) (Q : Int → Prop) {f : LCGState → Int × LCGState}
    (h : ∀ s, P s → Q (f s).1 ∧ P (f s).2) (size : Option Nat) (s : LCGState) (hs : P s) :
    (∀ v ∈ LCG.callOut (LCG.randintWith f size s).1, Q v)
      ∧ P (LCG.randintWith f size s).2 := by
  cases size with
  | none =>
    obtain ⟨hQ, hP⟩ := h s hs
    refine ⟨?_, hP⟩
    intro v hv
    simp only [LCG.randintWith, LCG.callOut, List.mem_singleton] at hv
    exact hv ▸ hQ
  | some n =>
    obtain ⟨h1, h2⟩ := batch_inv P Q h n s hs
    exact ⟨by simpa [LCG.randintWith, LCG.callOut] using h1, h2⟩

/-- Invariant/range lemma for a whole call sequence. -/
theorem runWith_inv (P : LCGState → Prop) (Q : Int → Prop) {f : LCGState → Int × LCGState}
    (h : ∀ s, P s → Q (f s).1 ∧ P (f s).2) :
    ∀ (calls : List LCGCall) (s : LCGState), P s →
      (∀ v ∈ (LCG.runWith f calls s).1, Q v) ∧ P (LCG.runWith f calls s).2
  | [], _, hs => ⟨by simp [LCG.runWith], hs⟩
  | LCGCall.adv :: rest, s, hs => by
    obtain ⟨hQ, hP⟩ := h s hs
    obtain ⟨ih1, ih2⟩ := runWith_inv P Q h rest (f s).2 hP
    refine ⟨?_, ih2⟩
    intro v hv
    simp only [LCG.runWith, List.mem_cons] at hv
    rcases hv with hv | hv
    · exact hv ▸ hQ
    · exact ih1 v hv
  | LCGCall.rand size :: rest, s, hs => by
    obtain ⟨h1, h2⟩ := randintWith_inv P Q h size s hs
    obtain ⟨ih1, ih2⟩ := runWith_inv P Q h rest (LCG.randintWith f size s).2 h2
    refine ⟨?_, ih2⟩
    intro v hv
    simp only [LCG.runWith, List.mem_append] at hv
    rcases hv with hv | hv
    · exact h1 v hv
    · exact ih1 v hv

end LCG

/-- Inversion of a successful `PyLCG` construction: it forces `0 < m` and
determines the constructed state. -/
theorem PyLCG.init_ok {a c m seed : Int} {g : LCGState}
    (h : PyLCG.init a c m seed = Except.ok g) :
    0 < m ∧ g = { a := a, c := c, m := m, x := seed } := by
  by_cases hm : m ≤ 0
  · simp [PyLCG.init, hm] at h
  · refine ⟨by omega, ?_⟩
    simp only [PyLCG.init, if_neg hm] at h
    exact (Except.ok.injEq _ _).mp h |>.symm

/-- Advancing a `PyLCG` whose modulus is positive stores a reduced state:
Python's `%` with a positive right operand lands in `[0, m)`. -/
theorem PyLCG.advance_x_mem {s : LCGState} (hm : 0 < s.m) :
    0 ≤ (PyLCG.advance s).2.x ∧ (PyLCG.advance s).2.x < s.m :=
  ⟨Int.fmod_nonneg' _ hm, Int.fmod_lt_of_pos _ hm⟩

/-- A `PyLCG` advance call leaves `a`, `c`, `m` untouched. -/
theorem PyLCG.advance_frame (s : LCGState) :
    (PyLCG.advance s).2.a = s.a ∧ (PyLCG.advance s).2.c = s.c
      ∧ (PyLCG.advance s).2.m = s.m :=
  ⟨rfl, rfl, rfl⟩

/-- Stepping hypothesis for the reduced-state invariant of `PyLCG`:
from a state with modulus `m` and `x ∈ [0, m)`, the emitted value is in
`[0, m)` and the successor state is again reduced. -/
theorem PyLCG.step_red {m : Int} (hm : 0 < m) (s : LCGState)
    (hs : s.m = m ∧ 0 ≤ s.x ∧ s.x < m) :
    (0 ≤ (PyLCG.advance s).1 ∧ (PyLCG.advance s).1 < m)
      ∧ ((PyLCG.advance s).2.m = m ∧ 0 ≤ (PyLCG.advance s).2.x
          ∧ (PyLCG.advance s).2.x < m) := by
  obtain ⟨h1, h2, h3⟩ := hs
  have := PyLCG.advance_x_mem (s := s) (by omega)
  exact ⟨⟨h2, h3⟩, h1, by omega, by omega⟩

/-- Stepping hypothesis for the weak invariant of `PyLCG` (seed possibly
out of range): every emitted value is in `[0, m)` or equals the seed. -/
theorem PyLCG.step_weak {m x0 : Int} (hm : 0 < m) (s : LCGState)
    (hs : s.m = m ∧ (s.x = x0 ∨ (0 ≤ s.x ∧ s.x < m))) :
    ((0 ≤ (PyLCG.advance s).1 ∧ (PyLCG.advance s).1 < m) ∨ (PyLCG.advance s).1 = x0)
      ∧ ((PyLCG.advance s).2.m = m
          ∧ ((PyLCG.advance s).2.x = x0
              ∨ (0 ≤ (PyLCG.advance s).2.x ∧ (PyLCG.advance s).2.x < m))) := by
  obtain ⟨h1, h2⟩ := hs
  have hx := PyLCG.advance_x_mem (s := s) (by omega)
  refine ⟨?_, h1, Or.inr ⟨by omega, by omega⟩⟩
  rcases h2 with h2 | h2
  · exact Or.inr h2
  · exact Or.inl h2

/-- Wrapping is the identity on values already in the 64-bit signed range. -/
theorem wrap64_eq_self {z : Int} (h1 : -(2 ^ 63) ≤ z) (h2 : z < 2 ^ 63) :
    wrap64 z = z := by
  have e1 : (-(2 ^ 63) : Int) = -9223372036854775808 := by norm_num
  have e2 : ((2 ^ 63) : Int) = 9223372036854775808 := by norm_num
  rw [e1] at h1
  rw [e2] at h2
  show (z + 2 ^ 63) % 2 ^ 64 - 2 ^ 63 = z
  rw [Int.emod_eq_of_lt (by norm_num; omega) (by norm_num; omega)]
  omega

/-- At the default parameters, with the state reduced modulo `2^32`, the
Cython 64-bit truncating arithmetic computes exactly the Python unbounded
floor-modulus arithmetic: no wrap-around occurs because
`1664525 * x + 1013904223 < 2^63` for `x < 2^32`, and the truncating and
floor remainders agree on non-negative operands. -/
theorem default_step_eq (s : LCGState) (h : defaultRed s) :
    PyLCG.advance s = CyLCG.advance s ∧ defaultRed (PyLCG.advance s).2 := by
  obtain ⟨a, c, m, x⟩ := s
  obtain ⟨ha, hc, hm, hx0, hx1⟩ := h
  simp only at ha hc hm hx0 hx1
  subst ha hc hm
  have hax0 : (0 : Int) ≤ 1664525 * x := by positivity
  have hax1 : (1664525 : Int) * x < 1664525 * 2 ^ 32 :=
    mul_lt_mul_of_pos_left hx1 (by norm_num)
  have hsum0 : (0 : Int) ≤ 1664525 * x + 1013904223 := by omega
  have hsum1 : (1664525 : Int) * x + 1013904223 < 2 ^ 63 := by
    have : (1664525 : Int) * 2 ^ 32 + 1013904223 < 2 ^ 63 := by norm_num
    omega
  have hw1 : wrap64 (1664525 * x) = 1664525 * x :=
    wrap64_eq_self (by omega) (by omega)
  have hw2 : wrap64 (1664525 * x + 1013904223) = 1664525 * x + 1013904223 :=
    wrap64_eq_self (by omega) (by omega)
  have hmods : Int.tmod (1664525 * x + 1013904223) (2 ^ 32)
      = Int.fmod (1664525 * x + 1013904223) (2 ^ 32) := by
    rw [Int.tmod_eq_emod hsum0 (by norm_num), Int.fmod_eq_emod _ (by norm_num)]
  have hnew0 : 0 ≤ Int.fmod (1664525 * x + 1013904223) (2 ^ 32) :=
    Int.fmod_nonneg' _ (by norm_num)
  have hnew1 : Int.fmod (1664525 * x + 1013904223) (2 ^ 32) < 2 ^ 32 :=
    Int.fmod_lt_of_pos _ (by norm_num)
  constructor
  · simp only [PyLCG.advance, CyLCG.advance, hw1, hw2, hmods]
  · exact ⟨rfl, rfl, rfl, hnew0, hnew1⟩

/-- Simulation of the Cython run by the Python run: under an invariant `P`
preserved by the advance and on which the two advance functions agree, a
call sequence whose batch sizes all fit in a 32-bit C `int` raises
nothing, and the compiled run returns exactly the Python outputs and final
state. -/
theorem CyLCG.run_eq_ok (P : LCGState → Prop)
    (h : ∀ s, P s → PyLCG.advance s = CyLCG.advance s ∧ P (PyLCG.advance s).2) :
    ∀ (calls : List LCGCall) (s : LCGState), P s →
      (∀ call ∈ calls, callFitsCInt call = true) →
      CyLCG.run calls s = Except.ok (PyLCG.run calls s)
  | [], _, _, _ => rfl
  | LCGCall.adv :: rest, s, hs, hfit => by
    obtain ⟨hstep, hP⟩ := h s hs
    have ih := CyLCG.run_eq_ok P h rest (PyLCG.advance s).2 hP
      (fun c hc => hfit c (List.mem_cons_of_mem _ hc))
    simp only [CyLCG.run, ← hstep, ih, PyLCG.run, LCG.runWith]
  | LCGCall.rand none :: rest, s, hs, hfit => by
    obtain ⟨hstep, hP⟩ := h s hs
    have ih := CyLCG.run_eq_ok P h rest (PyLCG.advance s).2 hP
      (fun c hc => hfit c (List.mem_cons_of_mem _ hc))
    simp only [CyLCG.run, CyLCG.randint, ← hstep, ih, PyLCG.run, LCG.runWith,
      PyLCG.randint, LCG.randintWith, LCG.callOut]
  | LCGCall.rand (some n) :: rest, s, hs, hfit => by
    have hn : fitsCInt n = true :=
      hfit (LCGCall.rand (some n)) (List.mem_cons_self _ _)
    obtain ⟨hb, hPb⟩ := LCG.batch_congr P h n s hs
    have ih := CyLCG.run_eq_ok P h rest (LCG.batch PyLCG.advance n s).2 hPb
      (fun c hc => hfit c (List.mem_cons_of_mem _ hc))
    simp only [CyLCG.run, CyLCG.randint, hn, if_true, ← hb, ih, PyLCG.run,
      LCG.runWith, PyLCG.randint, LCG.randintWith, LCG.callOut]

/-- The batch loop of `randint(size=n)` performs exactly the advances of
`n` sequential single-value `randint()` calls. -/
theorem PyLCG.batch_eq_seqSingle :
    ∀ (n : Nat) (s : LCGState), LCG.batch PyLCG.advance n s = PyLCG.seqSingle n s
  | 0, _ => rfl
  | n + 1, s => by
    simp [LCG.batch, PyLCG.seqSingle, PyLCG.randint, LCG.randintWith, LCG.callOut,
      PyLCG.batch_eq_seqSingle n]

/-- C1 counterexample: constructing `PyLCG(1, 0, 5, 7)` succeeds since
`m = 5 > 0`, yet the first `_advance()` call returns `7`, which does not
lie in `[0, 5)`: the first returned value is the seed, unreduced. -/
theorem C1_counterexample :
    PyLCG.init 1 0 5 7 = Except.ok { a := 1, c := 0, m := 5, x := 7 }
      ∧ (PyLCG.run [LCGCall.adv] { a := 1, c := 0, m := 5, x := 7 }).1 = [7]
      ∧ ¬((0 : Int) ≤ 7 ∧ (7 : Int) < 5) :=
  ⟨rfl, rfl, by decide⟩

/-- C1 (amended): for every construction `PyLCG(a, c, m, seed)` with
`m > 0`, every value returned by any sequence of `_advance()`/`randint()`
calls either lies in `[0, m)` or equals the seed (the first call returns
the stored seed unreduced; every later value is a Python `%`-result and is
in range). -/
theorem C1_range_or_seed (a c m seed : Int) (g : LCGState)
    (hg : PyLCG.init a c m seed = Except.ok g) (calls : List LCGCall) :
    ∀ v ∈ (PyLCG.run calls g).1, (0 ≤ v ∧ v < m) ∨ v = seed := by
  obtain ⟨hm, hgeq⟩ := PyLCG.init_ok hg
  subst hgeq
  exact (LCG.runWith_inv
    (fun s => s.m = m ∧ (s.x = seed ∨ (0 ≤ s.x ∧ s.x < m)))
    (fun v => (0 ≤ v ∧ v < m) ∨ v = seed)
    (fun s hs => PyLCG.step_weak hm s hs)
    calls _ ⟨rfl, Or.inl rfl⟩).1

/-- Witness for the amended C1 at `PyLCG(1, 0, 5, 7)` after two advances:
the second returned value `2` is in range (the first was the seed `7`). -/
theorem C1_range_or_seed_witness : ((0 : Int) ≤ 2 ∧ (2 : Int) < 5) ∨ (2 : Int) = 7 :=
  C1_range_or_seed 1 0 5 7 { a := 1, c := 0, m := 5, x := 7 } rfl
    [LCGCall.adv, LCGCall.adv] 2 (by decide)

/-- C2 counterexample: `randint(size=3)` on
`PyLCG(a=1664525, c=1013904223, m=2**32, seed=42)` returns
`[42, 1083814273, 378494188]`, and the second value differs from the
claimed `1084822493`: the claim's evaluation of
`(1664525*42+1013904223) mod 2**32` is incorrect. -/
theorem C2_counterexample :
    PyLCG.init 1664525 1013904223 (2 ^ 32) 42
        = Except.ok { a := 1664525, c := 1013904223, m := 2 ^ 32, x := 42 }
      ∧ (PyLCG.randint (some 3)
          { a := 1664525, c := 1013904223, m := 2 ^ 32, x := 42 }).1
        = Sum.inr [42, 1083814273, 378494188]
      ∧ (1083814273 : Int) ≠ 1084822493 :=
  ⟨rfl, by decide, by decide⟩

/-- C2 (amended): on `PyLCG(a=1664525, c=1013904223, m=2**32, seed=42)` the
batch call `randint(size=3)` returns first the seed `42`, second
`(1664525*42+1013904223) mod 2**32`, whose value is `1083814273`, and third
the recurrence applied once more to that second value. -/
theorem C2_next3_values :
    PyLCG.init 1664525 1013904223 (2 ^ 32) 42
        = Except.ok { a := 1664525, c := 1013904223, m := 2 ^ 32, x := 42 }
      ∧ (PyLCG.randint (some 3)
          { a := 1664525, c := 1013904223, m := 2 ^ 32, x := 42 }).1
        = Sum.inr [42, (1664525 * 42 + 1013904223) % 2 ^ 32,
            (1664525 * ((1664525 * 42 + 1013904223) % 2 ^ 32) + 1013904223) % 2 ^ 32]
      ∧ (1664525 * 42 + 1013904223) % (2 : Int) ^ 32 = 1083814273 :=
  ⟨rfl, by decide, by decide⟩

/-- C3: `_advance` returns the pre-update `x` and then stores
`(a * x + c) % m`; with the default parameters and seed `0`, the first two
returned values are `0` (the initial `x`) and `1013904223`. -/
theorem C3_advance_semantics :
    (∀ s : LCGState,
        (PyLCG.advance s).1 = s.x
          ∧ (PyLCG.advance s).2 = { s with x := Int.fmod (s.a * s.x + s.c) s.m })
      ∧ PyLCG.init 1664525 1013904223 (2 ^ 32) 0
          = Except.ok { a := 1664525, c := 1013904223, m := 2 ^ 32, x := 0 }
      ∧ (PyLCG.run [LCGCall.adv, LCGCall.adv]
          { a := 1664525, c := 1013904223, m := 2 ^ 32, x := 0 }).1
        = [0, 1013904223] :=
  ⟨fun _ => ⟨rfl, rfl⟩, rfl, by decide⟩

/-- C4: for every state and every `n ≥ 0`, `randint(size=n)` returns the
array of exactly `n` values that `n` sequential `randint()` calls with
`size` omitted would return, in the same order and with the same final
state; `n = 0` yields the empty sequence. -/
theorem C4_batch_eq_sequential (n : Nat) (s : LCGState) :
    PyLCG.randint (some n) s
        = (Sum.inr (PyLCG.seqSingle n s).1, (PyLCG.seqSingle n s).2)
      ∧ (PyLCG.seqSingle n s).1.length = n
      ∧ (PyLCG.randint (some 0) s).1 = Sum.inr [] := by
  have hb := PyLCG.batch_eq_seqSingle n s
  refine ⟨?_, ?_, rfl⟩
  · show (Sum.inr (LCG.batch PyLCG.advance n s).1, (LCG.batch PyLCG.advance n s).2) = _
    rw [hb]
  · rw [← hb]
    exact LCG.batch_length PyLCG.advance n s

/-- C5: `PyLCG(a, c, m, seed)` succeeds and stores the four parameters
exactly when `m > 0`, and fails with the `ValueError` message exactly when
`m ≤ 0`, regardless of the signs of `a`, `c`, `seed`. -/
theorem C5_construction (a c m seed : Int) :
    (0 < m ∧ PyLCG.init a c m seed
        = Except.ok { a := a, c := c, m := m, x := seed })
      ∨ (m ≤ 0 ∧ PyLCG.init a c m seed
        = Except.error ("m must be > 0, given " ++ toString m)) := by
  by_cases hm : m ≤ 0
  · exact Or.inr ⟨hm, by simp [PyLCG.init, hm]⟩
  · exact Or.inl ⟨by omega, by simp [PyLCG.init, hm]⟩

/-- C6: two `PyLCG` generators constructed from identical
`(a, c, m, seed)` produce identical outputs (and identical final states)
on every identical sequence of `_advance()`/`randint()` calls. -/
theorem C6_determinism (a c m seed : Int) (g1 g2 : LCGState)
    (h1 : PyLCG.init a c m seed = Except.ok g1)
    (h2 : PyLCG.init a c m seed = Except.ok g2) (calls : List LCGCall) :
    PyLCG.run calls g1 = PyLCG.run calls g2 := by
  have hg : g1 = g2 := (Except.ok.injEq _ _).mp (h1.symm.trans h2)
  rw [hg]

/-- Witness for C6 at the default parameters and one advance call. -/
theorem C6_determinism_witness :
    PyLCG.run [LCGCall.adv] { a := 1664525, c := 1013904223, m := 2 ^ 32, x := 0 }
      = PyLCG.run [LCGCall.adv] { a := 1664525, c := 1013904223, m := 2 ^ 32, x := 0 } :=
  C6_determinism 1664525 1013904223 (2 ^ 32) 0
    { a := 1664525, c := 1013904223, m := 2 ^ 32, x := 0 }
    { a := 1664525, c := 1013904223, m := 2 ^ 32, x := 0 }
    (by decide) (by decide) [LCGCall.adv]

/-- C7 counterexample: at the default parameters, the single call
`randint(size=2**31)` raises `OverflowError` in `CyLCG` — the source
converts the size with `cdef int n = int(size)`, and `2**31` does not fit
a 32-bit C `int` — while `PyLCG` returns `2**31` values, so the two
implementations do not produce identical output sequences for every
sequence of calls. -/
theorem C7_counterexample :
    CyLCG.run [LCGCall.rand (some (2 ^ 31))]
        { a := 1664525, c := 1013904223, m := 2 ^ 32, x := 0 }
      = Except.error "OverflowError: value too large to convert to int"
      ∧ (PyLCG.run [LCGCall.rand (some (2 ^ 31))]
          { a := 1664525, c := 1013904223, m := 2 ^ 32, x := 0 }).1.length
        = 2 ^ 31 := by
  refine ⟨rfl, ?_⟩
  simp [PyLCG.run, LCG.runWith, PyLCG.randint, LCG.randintWith, LCG.callOut,
    LCG.batch_length]

/-- C7 (amended): at the default parameters `a=1664525, c=1013904223,
m=2**32` and seed `0`, both constructors succeed with the same state, and
every sequence of `_advance()`/`randint()` calls whose batch sizes all fit
in a 32-bit C `int` (`size < 2**31`) raises nothing and produces identical
outputs and final states in `PyLCG` (unbounded integers, floor modulus)
and `CyLCG` (64-bit C `long`s, truncating remainder). -/
theorem C7_py_cy_equivalent (calls : List LCGCall)
    (hfit : ∀ call ∈ calls, callFitsCInt call = true) :
    PyLCG.init 1664525 1013904223 (2 ^ 32) 0
        = Except.ok { a := 1664525, c := 1013904223, m := 2 ^ 32, x := 0 }
      ∧ CyLCG.cinit 1664525 1013904223 (2 ^ 32) 0
        = Except.ok { a := 1664525, c := 1013904223, m := 2 ^ 32, x := 0 }
      ∧ CyLCG.run calls { a := 1664525, c := 1013904223, m := 2 ^ 32, x := 0 }
        = Except.ok (PyLCG.run calls
            { a := 1664525, c := 1013904223, m := 2 ^ 32, x := 0 }) := by
  refine ⟨rfl, by decide, ?_⟩
  exact CyLCG.run_eq_ok defaultRed default_step_eq calls _
    ⟨rfl, rfl, rfl, le_refl 0, by norm_num⟩ hfit

/-- Witness for the amended C7: one advance and one `randint(size=2)`. -/
theorem C7_py_cy_equivalent_witness :
    CyLCG.run [LCGCall.adv, LCGCall.rand (some 2)]
        { a := 1664525, c := 1013904223, m := 2 ^ 32, x := 0 }
      = Except.ok (PyLCG.run [LCGCall.adv, LCGCall.rand (some 2)]
          { a := 1664525, c := 1013904223, m := 2 ^ 32, x := 0 }) :=
  (C7_py_cy_equivalent [LCGCall.adv, LCGCall.rand (some 2)] (by decide)).2.2

/-- C8: a `_advance()` call changes no field but `x`, and on every advance
`x` is assigned the recurrence value `(a * x + c) % m`; a `randint()` call
(either form) also leaves `a`, `c`, `m` unchanged. -/
theorem C8_frame (s : LCGState) (size : Option Nat) :
    ((PyLCG.advance s).2.a = s.a ∧ (PyLCG.advance s).2.c = s.c
        ∧ (PyLCG.advance s).2.m = s.m
        ∧ (PyLCG.advance s).2.x = Int.fmod (s.a * s.x + s.c) s.m)
      ∧ ((PyLCG.randint size s).2.a = s.a ∧ (PyLCG.randint size s).2.c = s.c
        ∧ (PyLCG.randint size s).2.m = s.m) := by
  refine ⟨⟨rfl, rfl, rfl, rfl⟩, ?_⟩
  cases size with
  | none => exact ⟨rfl, rfl, rfl⟩
  | some n =>
    exact (LCG.batch_inv (fun t => t.a = s.a ∧ t.c = s.c ∧ t.m = s.m) (fun _ => True)
      (fun t ht => ⟨trivial, ht⟩) n s ⟨rfl, rfl, rfl⟩).2

/-- C9: if `PyLCG(a, c, m, seed)` is constructed with `m > 0` and a seed
already in `[0, m)`, then every value returned by every sequence of
`_advance()`/`randint()` calls lies in `[0, m)`, and the first value an
advance returns is the seed itself, unreduced. -/
theorem C9_range_of_reduced_seed (a c m seed : Int) (g : LCGState)
    (hg : PyLCG.init a c m seed = Except.ok g)
    (h0 : 0 ≤ seed) (h1 : seed < m) (calls : List LCGCall) :
    (∀ v ∈ (PyLCG.run calls g).1, 0 ≤ v ∧ v < m) ∧ (PyLCG.advance g).1 = seed := by
  obtain ⟨hm, hgeq⟩ := PyLCG.init_ok hg
  subst hgeq
  exact ⟨(LCG.runWith_inv
    (fun s => s.m = m ∧ 0 ≤ s.x ∧ s.x < m)
    (fun v => 0 ≤ v ∧ v < m)
    (fun s hs => PyLCG.step_red hm s hs)
    calls _ ⟨rfl, h0, h1⟩).1, rfl⟩

/-- Witness for C9 at the default parameters with seed `42`. -/
theorem C9_range_witness :
    (PyLCG.advance { a := 1664525, c := 1013904223, m := 2 ^ 32, x := 42 }).1 = 42 :=
  (C9_range_of_reduced_seed 1664525 1013904223 (2 ^ 32) 42
    { a := 1664525, c := 1013904223, m := 2 ^ 32, x := 42 }
    (by decide) (by norm_num) (by norm_num) [LCGCall.adv]).2

/-- C10: at `a=1, c=0, m=5, seed=-3` — a construction both classes accept —
the Python and Cython generators diverge at the second returned value:
Python's floor modulus gives `(-3) % 5 = 2`, while the C truncating
remainder under `cdivision(True)` gives `-3`, a negative value. -/
theorem C10_divergence_negative_seed :
    PyLCG.init 1 0 5 (-3) = Except.ok { a := 1, c := 0, m := 5, x := -3 }
      ∧ CyLCG.cinit 1 0 5 (-3) = Except.ok { a := 1, c := 0, m := 5, x := -3 }
      ∧ (PyLCG.run [LCGCall.adv, LCGCall.adv]
          { a := 1, c := 0, m := 5, x := -3 }).1 = [-3, 2]
      ∧ CyLCG.run [LCGCall.adv, LCGCall.adv] { a := 1, c := 0, m := 5, x := -3 }
        = Except.ok ([-3, -3], { a := 1, c := 0, m := 5, x := -3 })
      ∧ ((2 : Int) ≠ -3 ∧ (-3 : Int) < 0) :=
  ⟨rfl, by decide, by decide, by decide, by decide⟩
